import Mathlib

/-!
# polly: startup validation, reconnect loop and event dispatch

A shallow embedding of `run`, `fail` and `notify` of `polly.go`.

The program talks to the outside world only through library calls (the IMAP
client, `os/exec`, `fmt`, `shellquote`, the logger).  Every such call is recorded
as an `Event` of a trace, and every answer the outside world gives (did the dial
fail, did the login fail, which updates arrived, how did the command exit) is
read from an explicit script, one `Attempt` per iteration of the reconnect
loop.  The reconnect loop never returns, so `run` yields the trace of the first
`env.length` iterations: the length of the script is the fuel.
-/

namespace Polly

/-! ## Durations -/

/-- Go's `time.Second`, a `time.Duration` counted in nanoseconds. -/
def Second : Int := 1000000000

/-- Go's `time.Minute`. -/
def Minute : Int := 60 * Second

/-- The constant `DefaultMailbox` of `polly.go`. -/
def DefaultMailbox : String := "INBOX"

/-- The constant `DefaultCheckInterval` of `polly.go`. -/
def DefaultCheckInterval : Int := 30 * Second

/-- Go's `Duration.Seconds`: `sec := d / Second; nsec := d % Second;
return float64(sec) + float64(nsec)/1e9`, with Go's truncating `/` and `%`.
The value is kept as an exact rational.  The only use in `polly.go` is the
comparison `Seconds() < 5`; for an integer number of nanoseconds the exact
value is either at least 5 or at most 4.999999999, nine orders of magnitude
more than a float64 rounding error away from 5, so the comparison has the
same outcome on the exact value as on the float64. -/
def Seconds (d : Int) : ℚ :=
  ((d.tdiv Second : Int) : ℚ) + ((d.tmod Second : Int) : ℚ) / 1000000000

/-! ## Data model -/

/-- The values `run` reads from the `cli.Context` (lines 104-110). -/
structure Config where
  server : String
  username : String
  password : String
  mailbox : String
  script : String
  checkInterval : Int
  args : List String
deriving DecidableEq, Repr

/-- Library functions `polly.go` calls on strings; they are not part of the
repository and are taken as parameters: `fmt.Sprintf` (verbs applied to a list
of already printed arguments) and `shellquote.Join`. -/
structure Lib where
  Sprintf : String → List String → String
  Join : List String → String

/-- The dynamic types an IMAP `client.Update` can have.  The dispatch loop only
asks whether the type is `*client.MailboxUpdate`. -/
inductive Update where
  | MailboxUpdate
  | StatusUpdate
  | MessageUpdate
  | ExpungeUpdate
  | other (typeName : String)
deriving DecidableEq, Repr

/-- What `%T` prints for an update. -/
def Update.typeName : Update → String
  | .MailboxUpdate => "*client.MailboxUpdate"
  | .StatusUpdate => "*client.StatusUpdate"
  | .MessageUpdate => "*client.MessageUpdate"
  | .ExpungeUpdate => "*client.ExpungeUpdate"
  | .other n => n

/-- The type assertion `u.(*client.MailboxUpdate)` of line 177. -/
def Update.isMailboxUpdate : Update → Bool
  | .MailboxUpdate => true
  | _ => false

/-- The outcomes of `cmd.Run()`: the command ran and exited with status 0, it
exited with a non-zero status, or it could not be started. -/
inductive RunResult where
  | success
  | exitError (status : Nat)
  | startError
deriving DecidableEq, Repr

/-- The test `err != nil` on the result of `cmd.Run()`. -/
def RunResult.isErr : RunResult → Bool
  | .success => false
  | _ => true

/-- The observable actions of the process.  Connections and channels carry the
number of the loop iteration that created them. -/
inductive Event where
  /-- The call `fmt.Fprintln(os.Stderr, line)`. -/
  | stderrln (line : String)
  /-- The call `os.Exit(code)`. -/
  | exit (code : Nat)
  /-- The call `log.Info().Msg(msg)`. -/
  | logInfo (msg : String)
  /-- The calls `log.Err(err).Msg(msg)` and `log.Error().Err(err).Msg(msg)`. -/
  | logErr (msg : String)
  /-- The call `c.Logout()` on connection `c`. -/
  | logout (c : Nat)
  /-- The call `time.Sleep(d)`. -/
  | sleep (d : Int)
  /-- The call `client.DialTLS(server, nil)` with the pair it returned: the client
  (`none` for nil) and whether the error is non-nil. -/
  | dialTLS (server : String) (c : Option Nat) (err : Bool)
  /-- The call `c.SetDebug(os.Stderr)`. -/
  | setDebug (c : Nat)
  /-- The call `c.Login(username, password)`. -/
  | login (c : Nat) (username password : String)
  /-- The call `c.Select(mailbox, readOnly)`. -/
  | select (c : Nat) (mailbox : String) (readOnly : Bool)
  /-- The allocation `make(chan client.Update, cap)`. -/
  | makeUpdates (ch : Nat) (cap : Nat)
  /-- The assignment `c.Updates = updates`. -/
  | setUpdates (c : Nat) (ch : Nat)
  /-- The allocation `make(chan struct{}, cap)`. -/
  | makeStop (ch : Nat) (cap : Nat)
  /-- The statement `go func() ...` over the two channels. -/
  | go (updates stop : Nat)
  /-- The call `c.Idle(stop, opts)`. -/
  | idle (c : Nat) (stop : Nat) (logoutTimeout pollInterval : Int)
  /-- The receive `u := <-updates` in the dispatch goroutine. -/
  | recv (ch : Nat) (u : Update)
  /-- The command `exec.Command(prog, args...)` run with the parent's stdout and stderr. -/
  | exec (prog : String) (args : List String)
  /-- The call `close(stop)`. -/
  | closeStop (ch : Nat)
  /-- A run-time panic (index out of range, nil pointer dereference). -/
  | panic
deriving DecidableEq, Repr

/-- The answers of the outside world during one iteration of the reconnect
loop, each read only if the iteration gets that far. -/
structure Attempt where
  /-- Whether `client.DialTLS` returned a non-nil error. -/
  dialErr : Bool
  /-- Whether `client.DialTLS` returned a non-nil client. -/
  dialClient : Bool
  /-- The value of `os.Getenv("DEBUG")`. -/
  debug : String
  /-- Whether `c.Login` returned a non-nil error. -/
  loginErr : Bool
  /-- Whether `c.Select` returned a non-nil error. -/
  selectErr : Bool
  /-- The updates the dispatch goroutine dequeues before the stop signal fires,
  each with the outcome `cmd.Run()` has if the command is run for it. -/
  drained : List (Update × RunResult)
  /-- Whether `c.Idle` returned a non-nil error. -/
  idleErr : Bool
deriving DecidableEq, Repr

/-! ## The program -/

/-- The function `fail` (lines 95-101): format the message if there are arguments, print
it with a newline on standard error, exit with status 1. -/
def fail (lib : Lib) (format : String) (args : List String) : List Event :=
  let format := if args.length > 0 then lib.Sprintf format args else format
  [Event.stderrln format, Event.exit 1]

/-- Lines 112-119 of `run`: the command and what is left of the positional
arguments.  `command` starts as the nil slice. -/
def buildCommand (script : String) (args : List String) : List String × List String :=
  if script = "" then
    (([] : List String) ++ args, [])
  else
    (([] : List String) ++ [script], args)

/-- The command handed to `notify`. -/
def command (cfg : Config) : List String := (buildCommand cfg.script cfg.args).1

/-- The positional arguments that remain after the command is built. -/
def extraneous (cfg : Config) : List String := (buildCommand cfg.script cfg.args).2

/-- The `switch` of lines 121-136: the first case that holds calls `fail`, which
ends the process; `none` when no case holds and `run` goes on to the loop. -/
def startupCheck (lib : Lib) (cfg : Config) : Option (List Event) :=
  let command := (buildCommand cfg.script cfg.args).1
  let args := (buildCommand cfg.script cfg.args).2
  if cfg.server = "" then
    some (fail lib "Please specify --server or set IMAP_SERVER in env." [])
  else if cfg.username = "" then
    some (fail lib "Please specify --username or set IMAP_USERNAME in env." [])
  else if cfg.password = "" then
    some (fail lib "Please specify --password or set IMAP_PASSWORD in env." [])
  else if cfg.mailbox = "" then
    some (fail lib "Please specify --mailbox or set IMAP_MAILBOX in env." [])
  else if command.length = 0 then
    some (fail lib "Please specify --script or set SCRIPT in env." [])
  else if Seconds cfg.checkInterval < 5 then
    some (fail lib "Error: the given --check-interval should be at least 5s." [])
  else if args.length > 0 then
    some (fail lib "Error: extraneous arguments: %s" [lib.Join args])
  else
    none

/-- The function `notify` (lines 198-207) with the outcome of `cmd.Run()`.  The second
component tells whether the call panicked: `command[0]` and `command[1:]` are
out of range for an empty command. -/
def notify (command : List String) (r : RunResult) : List Event × Bool :=
  match command[0]?, (if 1 ≤ command.length then some (command.drop 1) else none) with
  | some prog, some args =>
    ([Event.logInfo "New mail detected. Executing script...", Event.exec prog args]
      ++ (if r.isErr then [Event.logErr "Error executing script"] else []), false)
  | _, _ => ([Event.logInfo "New mail detected. Executing script...", Event.panic], true)

/-- The goroutine of lines 172-184, run on the updates it dequeues from channel
`ch` before it takes the stop case: log the type of each update and call `notify`
for a `*client.MailboxUpdate`.  The second component tells whether it panicked. -/
def dispatch (lib : Lib) (command : List String) (ch : Nat) :
    List (Update × RunResult) → List Event × Bool
  | [] => ([], false)
  | (u, r) :: rest =>
    let head := [Event.recv ch u,
      Event.logInfo (lib.Sprintf "Received IMAP update: %T" [u.typeName])]
    if u.isMailboxUpdate then
      let n := notify command r
      if n.2 then (head ++ n.1, true)
      else
        let d := dispatch lib command ch rest
        (head ++ n.1 ++ d.1, d.2)
    else
      let d := dispatch lib command ch rest
      (head ++ d.1, d.2)

/-- Lines 141-144: a non-nil client is logged out and the loop sleeps 60s. -/
def teardown (c : Option Nat) : List Event :=
  match c with
  | some id => [Event.logout id, Event.sleep (60 * Second)]
  | none => []

/-- The client variable `c` after `c, err = client.DialTLS(server, nil)` in
iteration `k`. -/
def dialled (k : Nat) (a : Attempt) : Option Nat :=
  if a.dialClient then some k else none

/-- Lines 148-194: what one iteration does after `client.DialTLS` returned, and
whether the process panicked.  A nil client returned without an error panics at
its first use. -/
def afterDial (lib : Lib) (cfg : Config) (command : List String) (k : Nat) (a : Attempt) :
    List Event × Bool :=
  if a.dialErr then
    ([Event.logErr "Error connecting to IMAP server", Event.sleep (60 * Second)], false)
  else
    match dialled k a with
    | none =>
      if a.debug = "1" then ([Event.panic], true)
      else ([Event.logInfo (lib.Sprintf "Logging in with user: %s" [cfg.username]),
             Event.panic], true)
    | some c =>
      let t := (if a.debug = "1" then [Event.setDebug c] else [])
        ++ [Event.logInfo (lib.Sprintf "Logging in with user: %s" [cfg.username]),
            Event.login c cfg.username cfg.password]
      if a.loginErr then (t ++ [Event.logErr "Error logging in"], false)
      else
        let t := t ++ [Event.logInfo (lib.Sprintf "Selecting mailbox: %s" [cfg.mailbox]),
                       Event.select c cfg.mailbox false]
        if a.selectErr then (t ++ [Event.logErr "Error selecting mailbox"], false)
        else
          let t := t ++ [Event.makeUpdates k 32, Event.setUpdates c k, Event.makeStop k 1,
                         Event.go k k, Event.logInfo "Entering idle mode...",
                         Event.idle c k (15 * Minute) cfg.checkInterval]
          let d := dispatch lib command k a.drained
          if d.2 then (t ++ d.1, true)
          else
            (t ++ d.1 ++ (if a.idleErr then [Event.logErr "Idling failed"] else [])
              ++ [Event.closeStop k], false)

/-- The events of one iteration that precede the dial: teardown of the previous
client and the log line. -/
def beforeDial (lib : Lib) (cfg : Config) (c : Option Nat) : List Event :=
  teardown c ++ [Event.logInfo (lib.Sprintf "Connecting to IMAP server: %s" [cfg.server])]

/-- The reconnect loop of lines 140-195, one `Attempt` per iteration, started
with client variable `c` in iteration number `k`.  The loop has no exit: it
stops only when the script of answers runs out or the process panics. -/
def loop (lib : Lib) (cfg : Config) (command : List String) :
    Option Nat → Nat → List Attempt → List Event
  | _, _, [] => []
  | c, k, a :: rest =>
    let r := afterDial lib cfg command k a
    beforeDial lib cfg c ++ Event.dialTLS cfg.server (dialled k a) a.dialErr :: r.1
      ++ (if r.2 then [] else loop lib cfg command (dialled k a) (k + 1) rest)

/-- The function `run` (lines 103-196): the trace of the process when the outside world
answers as in `env`. -/
def run (lib : Lib) (cfg : Config) (env : List Attempt) : List Event :=
  match startupCheck lib cfg with
  | some t => t
  | none => loop lib cfg (command cfg) none 0 env

/-! ## Specification-side definitions -/

/-- The required options in the order the spec lists them (server, username,
password, mailbox, script/command), each with whether it is empty and the
message that names it. -/
def requiredOptions (cfg : Config) : List (Bool × String) :=
  [(decide (cfg.server = ""), "Please specify --server or set IMAP_SERVER in env."),
   (decide (cfg.username = ""), "Please specify --username or set IMAP_USERNAME in env."),
   (decide (cfg.password = ""), "Please specify --password or set IMAP_PASSWORD in env."),
   (decide (cfg.mailbox = ""), "Please specify --mailbox or set IMAP_MAILBOX in env."),
   (decide (command cfg = []), "Please specify --script or set SCRIPT in env.")]

/-- The message naming the first required option that is empty, if any. -/
def firstMissing (cfg : Config) : Option String :=
  ((requiredOptions cfg).find? (fun o => o.1)).map (fun o => o.2)

/-- Whether an event is a dial attempt, a call of `client.DialTLS`. -/
def Event.isDial : Event → Bool
  | .dialTLS _ _ _ => true
  | _ => false

/-- A library instance for concrete evaluation: `Sprintf` appends the
arguments to the format, `Join` separates the words by blanks. -/
def sampleLib : Lib :=
  ⟨fun f a => f ++ String.join a, fun a => " ".intercalate a⟩

/-- The configuration of the scenario in the spec, section 8. -/
def sampleConfig : Config :=
  ⟨"imap.test:993", "u", "p", "INBOX", "notify.sh", 30 * Second, []⟩

/-- A script of answers for concrete evaluation: a login failure, then an attempt
that idles, dispatches one mailbox update and leaves idling with an error, then
a dial failure that returns no client. -/
def sampleAttempts : List Attempt :=
  [⟨false, true, "", true, false, [], false⟩,
   ⟨false, true, "", false, false, [(Update.MailboxUpdate, RunResult.success)], true⟩,
   ⟨true, false, "", false, false, [], false⟩]

/-- Whether a trace holds a panic. -/
def panics (t : List Event) : Bool := t.contains Event.panic

/-- Whether an event is a call of `time.Sleep`. -/
def Event.isSleep : Event → Bool
  | .sleep _ => true
  | _ => false

/-- The events the dispatch goroutine can produce. -/
def Event.isDispatch : Event → Bool
  | .recv _ _ => true
  | .logInfo _ => true
  | .logErr _ => true
  | .exec _ _ => true
  | .panic => true
  | _ => false

/-- The attempt ends in a dial failure: `client.DialTLS` returns an error. -/
def Attempt.dialFails (a : Attempt) : Bool := a.dialErr

/-- The attempt ends in a login failure: the dial succeeds, `c.Login` returns an
error. -/
def Attempt.loginFails (a : Attempt) : Bool := !a.dialErr && a.dialClient && a.loginErr

/-- The attempt ends in a select failure: dial and login succeed, `c.Select`
returns an error. -/
def Attempt.selectFails (a : Attempt) : Bool :=
  !a.dialErr && a.dialClient && !a.loginErr && a.selectErr

/-- The attempt reaches idling: dial, login and select succeed. -/
def Attempt.idles (a : Attempt) : Bool :=
  !a.dialErr && a.dialClient && !a.loginErr && !a.selectErr

/-- The numbers of the iterations that reach idling, when the loop starts in
iteration `k`: iteration `k + i` for every attempt `i` of the script that
idles, up to the first attempt in which `client.DialTLS` returns neither a
client nor an error, where the process panics. -/
def idlingIds : Nat → List Attempt → List Nat
  | _, [] => []
  | k, a :: rest =>
    if a.idles then k :: idlingIds (k + 1) rest
    else if a.dialErr || a.dialClient then idlingIds (k + 1) rest
    else []

/-- The client variable of the loop after the iterations of `env`. -/
def clientAfter : Option Nat → Nat → List Attempt → Option Nat
  | c, _, [] => c
  | _, k, a :: rest => clientAfter (dialled k a) (k + 1) rest

/-- The events on the two channels of a connection: creation of the updates
queue and of the stop signal, their hand-over to the client, to the dispatch
goroutine and to `c.Idle`, and the closing of the stop signal. -/
def Event.isChannel : Event → Bool
  | .makeUpdates _ _ => true
  | .setUpdates _ _ => true
  | .makeStop _ _ => true
  | .go _ _ => true
  | .idle _ _ _ _ => true
  | .closeStop _ => true
  | _ => false

/-- The channel events of a connection `j` that idles, in order: a queue of
capacity 32 and a stop signal are made for it, the queue is given to the
client, both are given to the goroutine, the client idles on the stop signal,
and the stop signal is closed. -/
def channelLifecycle (cfg : Config) (j : Nat) : List Event :=
  [Event.makeUpdates j 32, Event.setUpdates j j, Event.makeStop j 1, Event.go j j,
   Event.idle j j (15 * Minute) cfg.checkInterval, Event.closeStop j]

/-- Whether an event is an execution of the external command. -/
def Event.isExec : Event → Bool
  | .exec _ _ => true
  | _ => false

/-- Whether an event is a receive from an updates queue. -/
def Event.isRecv : Event → Bool
  | .recv _ _ => true
  | _ => false

/-- Whether an event is a receive from an updates queue or an execution of the
external command. -/
def Event.isRecvOrExec (e : Event) : Bool := e.isRecv || e.isExec

/-- The number of command executions the spec expects of a run: one for every
mailbox-change notification drained in an attempt that reaches idling. -/
def expectedExecutions (env : List Attempt) : Nat :=
  ((env.filter Attempt.idles).map
    (fun a => a.drained.countP (fun x => x.1.isMailboxUpdate))).sum

/-- The attempt with every outcome of `cmd.Run()` replaced by success. -/
def Attempt.eraseOutcomes (a : Attempt) : Attempt :=
  { a with drained := a.drained.map (fun x => (x.1, RunResult.success)) }

/-- Every event but the log line `notify` writes when `cmd.Run()` fails. -/
def Event.notScriptError (e : Event) : Bool :=
  !decide (e = Event.logErr "Error executing script")

/-! ## Interleavings of the main loop and the dispatch goroutine

The traces above place the work of the dispatch goroutine inside the call of
`c.Idle`.  The model below follows one connection from the `go` statement on
and lets the main loop, the goroutine and the library that fills the queue
take their steps in any order. -/

/-- Where the main loop stands for the connection. -/
inductive MainPc where
  /-- Blocked in `c.Idle(stop, opts)` (line 191). -/
  | idling
  /-- The call of `c.Idle` returned; `close(stop)` (line 194) comes next. -/
  | idleReturned
  /-- The stop signal is closed; `c.Logout()` (line 142) comes next. -/
  | stopClosed
  /-- The connection is logged out. -/
  | loggedOut
deriving DecidableEq, Repr

/-- Where the dispatch goroutine of lines 172-184 stands. -/
inductive GoPc where
  /-- At the `select` statement. -/
  | selecting
  /-- In `notify(command)`, waiting for `cmd.Run()`. -/
  | notifying
  /-- After `return`. -/
  | returned
deriving DecidableEq, Repr

/-- The state shared by the main loop and the goroutine of one connection: the
buffered updates channel (capacity 32) and whether the stop channel is closed. -/
structure Session where
  main : MainPc
  gor : GoPc
  updates : List Update
  stop : Bool
deriving DecidableEq, Repr

/-- The steps of the three parties. -/
inductive Step where
  /-- The library sends an update on `c.Updates`. -/
  | enqueue (u : Update)
  /-- The call of `c.Idle` returns, with or without an error. -/
  | idleReturns (err : Bool)
  /-- The main loop runs `close(stop)`. -/
  | closeStop
  /-- The main loop runs `c.Logout()`. -/
  | logout
  /-- The goroutine takes the case `u := <-updates` of its `select`; for a
  `*client.MailboxUpdate` it calls `notify` and starts the command. -/
  | recv
  /-- The command finishes and `notify` returns. -/
  | runReturns (r : RunResult)
  /-- The goroutine takes the case `<-stop` of its `select` and returns. -/
  | stopCase
deriving DecidableEq, Repr

/-- The session right after the `go` statement of line 172. -/
def Session.start : Session := ⟨MainPc.idling, GoPc.selecting, [], false⟩

/-- One step of the session, `none` when the step is not enabled.  A send on the
updates channel needs room in its buffer of 32; a case of the `select` is
enabled when its channel is ready: the updates channel when it holds an
update, the stop channel when it is closed.  When both are ready either may be
taken. -/
def step (s : Session) : Step → Option Session
  | .enqueue u =>
    if s.updates.length < 32 then some { s with updates := s.updates ++ [u] } else none
  | .idleReturns _ =>
    if s.main = MainPc.idling then some { s with main := MainPc.idleReturned } else none
  | .closeStop =>
    if s.main = MainPc.idleReturned then
      some { s with main := MainPc.stopClosed, stop := true }
    else none
  | .logout =>
    if s.main = MainPc.stopClosed then some { s with main := MainPc.loggedOut } else none
  | .recv =>
    if s.gor = GoPc.selecting then
      match s.updates with
      | [] => none
      | u :: rest =>
        some { s with updates := rest,
                      gor := if u.isMailboxUpdate then GoPc.notifying else GoPc.selecting }
    else none
  | .runReturns _ =>
    if s.gor = GoPc.notifying then some { s with gor := GoPc.selecting } else none
  | .stopCase =>
    if s.gor = GoPc.selecting ∧ s.stop = true then some { s with gor := GoPc.returned }
    else none

/-- The session after a sequence of steps, `none` when one of them is not enabled. -/
def steps (s : Session) : List Step → Option Session
  | [] => some s
  | l :: rest =>
    match step s l with
    | none => none
    | some t => steps t rest

/-- The steps the dispatch goroutine takes. -/
def Step.isGoroutine : Step → Bool
  | .recv => true
  | .runReturns _ => true
  | .stopCase => true
  | _ => false

/-! # Theorems -/

/-! ## Startup validation -/

theorem seconds_eq (d : Int) : Seconds d = (d : ℚ) / 1000000000 := by
  have h := Int.tdiv_add_tmod d Second
  have h2 : ((Second * d.tdiv Second + d.tmod Second : Int) : ℚ) = (d : ℚ) := by rw [h]
  push_cast at h2
  have h3 : ((Second : Int) : ℚ) = 1000000000 := by simp [Second]
  rw [h3] at h2
  unfold Seconds
  field_simp
  linarith

theorem seconds_lt_five_iff (d : Int) : Seconds d < 5 ↔ d < 5 * Second := by
  rw [seconds_eq, div_lt_iff₀ (by norm_num)]
  have : (5 : ℚ) * 1000000000 = ((5 * Second : Int) : ℚ) := by norm_num [Second]
  rw [this, Int.cast_lt]

/-- The loop is entered only when no case of the startup switch holds. -/
theorem startupCheck_eq_none_iff (lib : Lib) (cfg : Config) :
    startupCheck lib cfg = none ↔
      cfg.server ≠ "" ∧ cfg.username ≠ "" ∧ cfg.password ≠ "" ∧ cfg.mailbox ≠ "" ∧
      command cfg ≠ [] ∧ 5 * Second ≤ cfg.checkInterval ∧ extraneous cfg = [] := by
  have hs := seconds_lt_five_iff cfg.checkInterval
  unfold startupCheck command extraneous
  by_cases h1 : cfg.server = "" <;> by_cases h2 : cfg.username = "" <;>
    by_cases h3 : cfg.password = "" <;> by_cases h4 : cfg.mailbox = "" <;>
    by_cases h5 : (buildCommand cfg.script cfg.args).1 = [] <;>
    by_cases h6 : cfg.checkInterval < 5 * Second <;>
    by_cases h7 : (buildCommand cfg.script cfg.args).2 = [] <;>
    simp [h1, h2, h3, h4, h5, h6, h7, hs, List.length_eq_zero, List.length_pos]
  omega

/-- Every rejection by the startup switch is one line on standard error followed
by exit status 1. -/
theorem startupCheck_some (lib : Lib) (cfg : Config) (t : List Event)
    (h : startupCheck lib cfg = some t) : ∃ msg, t = [Event.stderrln msg, Event.exit 1] := by
  unfold startupCheck at h
  simp only [fail] at h
  split_ifs at h <;> simp at h <;> exact ⟨_, h.symm⟩

theorem run_of_accepted (lib : Lib) (cfg : Config) (env : List Attempt)
    (h : startupCheck lib cfg = none) :
    run lib cfg env = loop lib cfg (command cfg) none 0 env := by
  simp only [run, h]

theorem sample_accepted : startupCheck sampleLib sampleConfig = none := by
  rw [startupCheck_eq_none_iff]; decide

/-- C1: when a required option (server, username, password, mailbox, command) is
empty, the whole trace of `run` is the message naming the first missing one, in
that order, printed on standard error, followed by exit status 1; the trace holds
no dial attempt, whatever the outside world would answer. -/
theorem missing_option_exits (lib : Lib) (cfg : Config) (env : List Attempt)
    (h : cfg.server = "" ∨ cfg.username = "" ∨ cfg.password = "" ∨ cfg.mailbox = "" ∨
      command cfg = []) :
    ∃ msg, firstMissing cfg = some msg ∧
      run lib cfg env = [Event.stderrln msg, Event.exit 1] ∧
      ∀ e ∈ run lib cfg env, e.isDial = false := by
  unfold run startupCheck firstMissing requiredOptions command at *
  by_cases h1 : cfg.server = "" <;> by_cases h2 : cfg.username = "" <;>
    by_cases h3 : cfg.password = "" <;> by_cases h4 : cfg.mailbox = "" <;>
    by_cases h5 : (buildCommand cfg.script cfg.args).1 = [] <;>
    simp_all [fail, Event.isDial, List.find?]

/-- Witness for C1: server and password are both empty; the message names the server. -/
theorem missing_option_exits_witness :
    ∃ msg, firstMissing ⟨"", "u", "", "INBOX", "notify.sh", 30 * Second, []⟩ = some msg ∧
      run sampleLib ⟨"", "u", "", "INBOX", "notify.sh", 30 * Second, []⟩
        [⟨false, true, "", false, false, [], false⟩] = [Event.stderrln msg, Event.exit 1] ∧
      ∀ e ∈ run sampleLib ⟨"", "u", "", "INBOX", "notify.sh", 30 * Second, []⟩
        [⟨false, true, "", false, false, [], false⟩], e.isDial = false :=
  missing_option_exits sampleLib ⟨"", "u", "", "INBOX", "notify.sh", 30 * Second, []⟩
    [⟨false, true, "", false, false, [], false⟩] (Or.inl rfl)

/-- C2: a check-interval below 5 seconds always ends `run` with one line on
standard error and exit status 1, with no dial attempt in the trace; and when
the required options are present and no positional argument is left over, the
startup switch rejects the configuration exactly when the check-interval is
strictly below 5 seconds, so that 5s itself is accepted. -/
theorem short_interval_rejected (lib : Lib) (cfg : Config) (env : List Attempt) :
    (cfg.checkInterval < 5 * Second →
      (∃ msg, run lib cfg env = [Event.stderrln msg, Event.exit 1]) ∧
      ∀ e ∈ run lib cfg env, e.isDial = false) ∧
    (cfg.server ≠ "" → cfg.username ≠ "" → cfg.password ≠ "" → cfg.mailbox ≠ "" →
      command cfg ≠ [] → extraneous cfg = [] →
      ((startupCheck lib cfg ≠ none ↔ cfg.checkInterval < 5 * Second) ∧
       (cfg.checkInterval < 5 * Second → run lib cfg env =
          [Event.stderrln "Error: the given --check-interval should be at least 5s.",
           Event.exit 1]) ∧
       (cfg.checkInterval = 5 * Second → startupCheck lib cfg = none))) := by
  refine ⟨fun h => ?_, fun h1 h2 h3 h4 h5 h7 => ⟨?_, fun h => ?_, fun h => ?_⟩⟩
  · cases hc : startupCheck lib cfg with
    | none =>
      have := (startupCheck_eq_none_iff lib cfg).1 hc
      omega
    | some t =>
      obtain ⟨msg, rfl⟩ := startupCheck_some lib cfg t hc
      simp [run, hc, Event.isDial]
  · rw [Ne, startupCheck_eq_none_iff]
    constructor
    · intro hn
      by_contra hlt
      exact hn ⟨h1, h2, h3, h4, h5, by omega, h7⟩
    · intro hlt hn
      omega
  · have hs := (seconds_lt_five_iff cfg.checkInterval).2 h
    unfold command at h5
    unfold extraneous at h7
    simp [run, startupCheck, h1, h2, h3, h4, h5, h7, hs, fail, List.length_eq_zero]
  · rw [startupCheck_eq_none_iff]
    exact ⟨h1, h2, h3, h4, h5, by omega, h7⟩

/-- Witness for C2: an interval of 4.999999999s is rejected, one of exactly 5s is
accepted, both with every required option present. -/
theorem short_interval_rejected_witness :
    run sampleLib ⟨"imap.test:993", "u", "p", "INBOX", "notify.sh", 4999999999, []⟩ [] =
      [Event.stderrln "Error: the given --check-interval should be at least 5s.",
       Event.exit 1] ∧
    startupCheck sampleLib ⟨"imap.test:993", "u", "p", "INBOX", "notify.sh", 5000000000, []⟩
      = none :=
  ⟨((short_interval_rejected sampleLib
      ⟨"imap.test:993", "u", "p", "INBOX", "notify.sh", 4999999999, []⟩ []).2
      (by decide) (by decide) (by decide) (by decide) (by decide) (by decide)).2.1 (by decide),
   ((short_interval_rejected sampleLib
      ⟨"imap.test:993", "u", "p", "INBOX", "notify.sh", 5000000000, []⟩ []).2
      (by decide) (by decide) (by decide) (by decide) (by decide) (by decide)).2.2 (by decide)⟩

/-- C9: with a non-empty script the command is the one-element sequence holding
the script string unsplit, and once the five required options are present and
the check-interval is at least 5s any non-empty positional argument list ends
`run` with the extraneous-arguments message; with an empty script the command
is the positional argument list in order, no positional argument is left for
the extraneous-arguments case to test, and the startup switch accepts whenever
the earlier cases do not hold. -/
theorem command_from_script_or_args (lib : Lib) (cfg : Config) (env : List Attempt) :
    (cfg.script ≠ "" →
      command cfg = [cfg.script] ∧ extraneous cfg = cfg.args ∧
      (cfg.server ≠ "" → cfg.username ≠ "" → cfg.password ≠ "" → cfg.mailbox ≠ "" →
        5 * Second ≤ cfg.checkInterval → cfg.args ≠ [] →
        run lib cfg env =
          [Event.stderrln (lib.Sprintf "Error: extraneous arguments: %s" [lib.Join cfg.args]),
           Event.exit 1])) ∧
    (cfg.script = "" →
      command cfg = cfg.args ∧ extraneous cfg = [] ∧
      (cfg.server ≠ "" → cfg.username ≠ "" → cfg.password ≠ "" → cfg.mailbox ≠ "" →
        cfg.args ≠ [] → 5 * Second ≤ cfg.checkInterval →
        startupCheck lib cfg = none ∧
        run lib cfg env = loop lib cfg cfg.args none 0 env)) := by
  refine ⟨fun hs => ⟨?_, ?_, fun h1 h2 h3 h4 h6 h7 => ?_⟩,
    fun hs => ⟨?_, ?_, fun h1 h2 h3 h4 h5 h6 => ?_⟩⟩
  · simp [command, buildCommand, hs]
  · simp [extraneous, buildCommand, hs]
  · have hlt : ¬ Seconds cfg.checkInterval < 5 := by
      rw [seconds_lt_five_iff]; omega
    simp [run, startupCheck, buildCommand, fail, h1, h2, h3, h4, hs, hlt, h7,
      List.length_pos]
  · simp [command, buildCommand, hs]
  · simp [extraneous, buildCommand, hs]
  · have hn : startupCheck lib cfg = none := by
      rw [startupCheck_eq_none_iff]
      refine ⟨h1, h2, h3, h4, ?_, h6, ?_⟩
      · simpa [command, buildCommand, hs] using h5
      · simp [extraneous, buildCommand, hs]
    refine ⟨hn, ?_⟩
    simp [run, hn, command, buildCommand, hs]

/-- Witness for C9: a script with a blank in it stays one word and the
positional argument next to it is rejected; without a script the two
positional arguments are the command. -/
theorem command_from_script_or_args_witness :
    (command ⟨"imap.test:993", "u", "p", "INBOX", "notify.sh -v", 30 * Second, ["x"]⟩
        = ["notify.sh -v"] ∧
      run sampleLib ⟨"imap.test:993", "u", "p", "INBOX", "notify.sh -v", 30 * Second, ["x"]⟩ []
        = [Event.stderrln (sampleLib.Sprintf "Error: extraneous arguments: %s"
            [sampleLib.Join ["x"]]), Event.exit 1]) ∧
    (command ⟨"imap.test:993", "u", "p", "INBOX", "", 30 * Second, ["notify.sh", "-v"]⟩
        = ["notify.sh", "-v"] ∧
      startupCheck sampleLib
        ⟨"imap.test:993", "u", "p", "INBOX", "", 30 * Second, ["notify.sh", "-v"]⟩ = none) :=
  ⟨⟨((command_from_script_or_args sampleLib
        ⟨"imap.test:993", "u", "p", "INBOX", "notify.sh -v", 30 * Second, ["x"]⟩ []).1
        (by decide)).1,
    ((command_from_script_or_args sampleLib
        ⟨"imap.test:993", "u", "p", "INBOX", "notify.sh -v", 30 * Second, ["x"]⟩ []).1
        (by decide)).2.2 (by decide) (by decide) (by decide) (by decide) (by decide)
        (by decide)⟩,
   ⟨((command_from_script_or_args sampleLib
        ⟨"imap.test:993", "u", "p", "INBOX", "", 30 * Second, ["notify.sh", "-v"]⟩ []).2
        rfl).1,
    (((command_from_script_or_args sampleLib
        ⟨"imap.test:993", "u", "p", "INBOX", "", 30 * Second, ["notify.sh", "-v"]⟩ []).2
        rfl).2.2 (by decide) (by decide) (by decide) (by decide) (by decide)
        (by decide)).1⟩⟩

theorem notify_cons (prog : String) (args : List String) (r : RunResult) :
    notify (prog :: args) r =
      ([Event.logInfo "New mail detected. Executing script...", Event.exec prog args]
        ++ (if r.isErr then [Event.logErr "Error executing script"] else []), false) := by
  simp [notify]

theorem dispatch_cons_command (lib : Lib) (prog : String) (args : List String) (ch : Nat)
    (u : Update) (r : RunResult) (rest : List (Update × RunResult)) :
    dispatch lib (prog :: args) ch ((u, r) :: rest) =
      ([Event.recv ch u, Event.logInfo (lib.Sprintf "Received IMAP update: %T" [u.typeName])]
        ++ (if u.isMailboxUpdate then (notify (prog :: args) r).1 else [])
        ++ (dispatch lib (prog :: args) ch rest).1,
       (dispatch lib (prog :: args) ch rest).2) := by
  by_cases hu : u.isMailboxUpdate = true
  · simp [dispatch, hu, notify_cons]
  · simp [dispatch, hu]

theorem dispatch_no_panic (lib : Lib) (prog : String) (args : List String) (ch : Nat)
    (items : List (Update × RunResult)) :
    (dispatch lib (prog :: args) ch items).2 = false ∧
      panics (dispatch lib (prog :: args) ch items).1 = false := by
  induction items with
  | nil => simp [dispatch, panics]
  | cons x rest ih =>
    obtain ⟨u, r⟩ := x
    rw [dispatch_cons_command]
    refine ⟨ih.1, ?_⟩
    have ih2 := ih.2
    simp only [panics, List.contains_eq_any_beq, List.any_append, Bool.or_eq_false_iff] at ih2 ⊢
    refine ⟨⟨by simp, ?_⟩, ih2⟩
    by_cases hu : u.isMailboxUpdate = true
    · by_cases hr : r.isErr = true <;> simp [hu, hr, notify_cons]
    · simp [hu]

/-- C10: for a configuration the startup switch accepts, the command is
non-empty, so `command[0]` and `command[1:]` are in range: `notify` never
panics, for any outcome of the command, and neither does the dispatch of any
sequence of updates. -/
theorem notify_command_in_range (lib : Lib) (cfg : Config)
    (h : startupCheck lib cfg = none) :
    command cfg ≠ [] ∧
    (command cfg)[0]? ≠ none ∧ 1 ≤ (command cfg).length ∧
    (∀ r, (notify (command cfg) r).2 = false ∧ panics (notify (command cfg) r).1 = false) ∧
    ∀ ch items, (dispatch lib (command cfg) ch items).2 = false ∧
      panics (dispatch lib (command cfg) ch items).1 = false := by
  have hc := ((startupCheck_eq_none_iff lib cfg).1 h).2.2.2.2.1
  obtain ⟨prog, args, hpa⟩ := List.exists_cons_of_ne_nil hc
  rw [hpa]
  refine ⟨by simp, by simp, by simp, fun r => ?_, fun ch items => ?_⟩
  · rw [notify_cons]
    by_cases hr : r.isErr = true <;> simp [hr, panics]
  · exact dispatch_no_panic lib prog args ch items

/-- Witness for C10: the configuration of the spec's scenario passes the startup
switch. -/
theorem notify_command_in_range_witness :
    command sampleConfig ≠ [] ∧
    (command sampleConfig)[0]? ≠ none ∧ 1 ≤ (command sampleConfig).length ∧
    (∀ r, (notify (command sampleConfig) r).2 = false ∧
      panics (notify (command sampleConfig) r).1 = false) ∧
    ∀ ch items, (dispatch sampleLib (command sampleConfig) ch items).2 = false ∧
      panics (dispatch sampleLib (command sampleConfig) ch items).1 = false :=
  notify_command_in_range sampleLib sampleConfig (by
    rw [startupCheck_eq_none_iff]; decide)

/-! ## The reconnect loop -/

theorem split_after_no_dial {B pre rest R : List Event} {d : Event}
    (hB : ∀ e ∈ B, e.isDial = false) (hd : d.isDial = true)
    (h : pre ++ d :: rest = B ++ R) : ∃ p, pre = B ++ p ∧ p ++ d :: rest = R := by
  induction B generalizing pre with
  | nil => exact ⟨pre, rfl, by simpa using h⟩
  | cons b B ih =>
    cases pre with
    | nil =>
      simp only [List.nil_append, List.cons_append, List.cons.injEq] at h
      have hb := hB b (by simp)
      rw [← h.1, hd] at hb
      cases hb
    | cons x pre =>
      simp only [List.cons_append, List.cons.injEq] at h
      obtain ⟨p, hp, hr⟩ := ih (fun e he => hB e (by simp [he])) h.2
      exact ⟨p, by rw [h.1, hp, List.cons_append], hr⟩

theorem notify_events (command : List String) (r : RunResult) :
    (notify command r).1.all Event.isDispatch = true := by
  unfold notify
  split
  · by_cases hr : r.isErr = true <;> simp [hr, Event.isDispatch]
  · simp [Event.isDispatch]

theorem dispatch_all (lib : Lib) (command : List String) (ch : Nat)
    (items : List (Update × RunResult)) :
    (dispatch lib command ch items).1.all Event.isDispatch = true := by
  induction items with
  | nil => simp [dispatch]
  | cons x rest ih =>
    obtain ⟨u, r⟩ := x
    have hn := notify_events command r
    have h1 : Event.isDispatch (Event.recv ch u) = true := rfl
    have h2 : ∀ m, Event.isDispatch (Event.logInfo m) = true := fun _ => rfl
    unfold dispatch
    by_cases hu : u.isMailboxUpdate = true <;> by_cases hp : (notify command r).2 = true <;>
      simp only [hu, hp, if_true, if_false, Bool.false_eq_true, List.all_append, List.all_cons,
        List.all_nil, hn, ih, h1, h2, Bool.and_self]

theorem dispatch_events (lib : Lib) (command : List String) (ch : Nat)
    (items : List (Update × RunResult)) :
    ∀ e ∈ (dispatch lib command ch items).1, e.isDispatch = true := by
  have h := dispatch_all lib command ch items
  rw [List.all_eq_true] at h
  exact h

theorem dispatch_all_of (lib : Lib) (command : List String) (ch : Nat)
    (items : List (Update × RunResult)) (p : Event → Bool)
    (hp : ∀ e, e.isDispatch = true → p e = true) :
    (dispatch lib command ch items).1.all p = true := by
  rw [List.all_eq_true]
  intro e he
  exact hp e (dispatch_events lib command ch items e he)

theorem afterDial_all (lib : Lib) (cfg : Config) (command : List String) (k : Nat)
    (a : Attempt) (p : Event → Bool) (hp : ∀ e, e.isDial = false → e.isSleep = false → (∀ c, e ≠ Event.logout c) → p e = true)
    (hs : a.dialErr = true → p (Event.sleep (60 * Second)) = true) :
    (afterDial lib cfg command k a).1.all p = true := by
  have hd := dispatch_all_of lib command k a.drained p (fun e he => by
    cases e <;> first | exact hp _ rfl rfl (fun _ h => Event.noConfusion h) | cases he)
  have hlog : ∀ m, p (Event.logErr m) = true := fun m => hp _ rfl rfl (fun _ h => Event.noConfusion h)
  have e1 : ∀ m, p (Event.logInfo m) = true := fun _ => hp _ rfl rfl (fun _ h => Event.noConfusion h)
  have e2 : p Event.panic = true := hp _ rfl rfl (fun _ h => Event.noConfusion h)
  have e3 : ∀ c, p (Event.setDebug c) = true := fun _ => hp _ rfl rfl (fun _ h => Event.noConfusion h)
  have e4 : ∀ c u w, p (Event.login c u w) = true := fun _ _ _ => hp _ rfl rfl (fun _ h => Event.noConfusion h)
  have e5 : ∀ c m b, p (Event.select c m b) = true := fun _ _ _ => hp _ rfl rfl (fun _ h => Event.noConfusion h)
  have e6 : ∀ c n, p (Event.makeUpdates c n) = true := fun _ _ => hp _ rfl rfl (fun _ h => Event.noConfusion h)
  have e7 : ∀ c n, p (Event.setUpdates c n) = true := fun _ _ => hp _ rfl rfl (fun _ h => Event.noConfusion h)
  have e8 : ∀ c n, p (Event.makeStop c n) = true := fun _ _ => hp _ rfl rfl (fun _ h => Event.noConfusion h)
  have e9 : ∀ c n, p (Event.go c n) = true := fun _ _ => hp _ rfl rfl (fun _ h => Event.noConfusion h)
  have e10 : ∀ c n x y, p (Event.idle c n x y) = true := fun _ _ _ _ => hp _ rfl rfl (fun _ h => Event.noConfusion h)
  have e11 : ∀ c, p (Event.closeStop c) = true := fun _ => hp _ rfl rfl (fun _ h => Event.noConfusion h)
  unfold afterDial
  by_cases h1 : a.dialErr = true
  · simp only [h1, if_true, List.all_cons, List.all_nil, hlog, hs h1, Bool.and_self]
  · simp only [h1, if_false, Bool.false_eq_true]
    cases hc : dialled k a with
    | none =>
      simp only
      split_ifs <;> simp only [List.all_cons, List.all_nil, e1, e2, Bool.and_self]
    | some c =>
      simp only
      split_ifs <;>
        simp only [List.all_append, List.all_cons, List.all_nil, hlog, e1, e3, e4, e5, e6, e7,
          e8, e9, e10, e11, hd, Bool.and_self]

theorem afterDial_no_dial (lib : Lib) (cfg : Config) (command : List String) (k : Nat)
    (a : Attempt) : ∀ e ∈ (afterDial lib cfg command k a).1, e.isDial = false := by
  have h := afterDial_all lib cfg command k a (fun e => !e.isDial)
    (fun e he _ _ => by simp [he]) (fun _ => rfl)
  rw [List.all_eq_true] at h
  intro e he
  simpa using h e he

theorem beforeDial_no_dial (lib : Lib) (cfg : Config) (c : Option Nat) :
    ∀ e ∈ beforeDial lib cfg c, e.isDial = false := by
  intro e he
  cases c <;> simp [beforeDial, teardown] at he
  · rw [he]; rfl
  · rcases he with rfl | rfl | rfl <;> rfl

/-- The events between two consecutive dial attempts of the loop are the rest
of the iteration of the first dial, which did not panic, followed by the
events the next iteration performs before its own dial. -/
theorem loop_gap (lib : Lib) (cfg : Config) (command : List String) :
    ∀ (env : List Attempt) (c : Option Nat) (k : Nat) (pre mid post : List Event)
      (d1 d2 : Event),
      loop lib cfg command c k env = pre ++ d1 :: (mid ++ d2 :: post) →
      d1.isDial = true → d2.isDial = true → (∀ e ∈ mid, e.isDial = false) →
      ∃ a j, a ∈ env ∧ d1 = Event.dialTLS cfg.server (dialled j a) a.dialErr ∧
        (afterDial lib cfg command j a).2 = false ∧
        mid = (afterDial lib cfg command j a).1 ++ beforeDial lib cfg (dialled j a) := by
  intro env
  induction env with
  | nil =>
    intro c k pre mid post d1 d2 h
    simp [loop] at h
  | cons a rest ih =>
    intro c k pre mid post d1 d2 h hd1 hd2 hmid
    simp only [loop, List.append_assoc, List.cons_append] at h
    obtain ⟨p, hp, hr⟩ := split_after_no_dial (beforeDial_no_dial lib cfg c) hd1 h.symm
    cases p with
    | nil =>
      simp only [List.nil_append, List.cons.injEq] at hr
      obtain ⟨hd, hr⟩ := hr
      obtain ⟨m, hm, hr2⟩ :=
        split_after_no_dial (afterDial_no_dial lib cfg command k a) hd2 hr
      by_cases hcr : (afterDial lib cfg command k a).2 = true
      · simp [hcr] at hr2
      · simp only [hcr, if_false, Bool.false_eq_true] at hr2
        cases rest with
        | nil => simp [loop] at hr2
        | cons b rest2 =>
          simp only [loop, List.append_assoc, List.cons_append] at hr2
          obtain ⟨q, hq, hr3⟩ :=
            split_after_no_dial (beforeDial_no_dial lib cfg (dialled k a)) hd2 hr2
          cases q with
          | nil =>
            refine ⟨a, k, by simp, hd, by simpa using hcr, ?_⟩
            rw [hm, hq, List.append_nil]
          | cons y q =>
            simp only [List.cons_append, List.cons.injEq] at hr3
            have hy : y ∈ mid := by rw [hm, hq]; simp
            have := hmid y hy
            rw [hr3.1] at this
            cases this
    | cons y p =>
      simp only [List.cons_append, List.cons.injEq] at hr
      obtain ⟨_, hr⟩ := hr
      obtain ⟨m, hm, hr2⟩ :=
        split_after_no_dial (afterDial_no_dial lib cfg command k a) hd1 hr
      by_cases hcr : (afterDial lib cfg command k a).2 = true
      · simp [hcr] at hr2
      · simp only [hcr, if_false, Bool.false_eq_true] at hr2
        obtain ⟨b, j, hb, h1, h2, h3⟩ :=
          ih (dialled k a) (k + 1) m mid post d1 d2 hr2.symm hd1 hd2 hmid
        exact ⟨b, j, by simp [hb], h1, h2, h3⟩

theorem beforeDial_dials (lib : Lib) (cfg : Config) (c : Option Nat) :
    (beforeDial lib cfg c).countP Event.isDial = 0 := by
  rw [List.countP_eq_zero]
  intro e he
  simp [beforeDial_no_dial lib cfg c e he]

theorem afterDial_dials (lib : Lib) (cfg : Config) (command : List String) (k : Nat)
    (a : Attempt) : (afterDial lib cfg command k a).1.countP Event.isDial = 0 := by
  rw [List.countP_eq_zero]
  intro e he
  simp [afterDial_no_dial lib cfg command k a e he]

/-- Every iteration of the loop dials exactly once, and the loop goes on to the
next iteration unless the process panicked. -/
theorem loop_cons_dials (lib : Lib) (cfg : Config) (command : List String) (c : Option Nat)
    (k : Nat) (a : Attempt) (rest : List Attempt) :
    (loop lib cfg command c k (a :: rest)).countP Event.isDial =
      1 + (if (afterDial lib cfg command k a).2 then 0
           else (loop lib cfg command (dialled k a) (k + 1) rest).countP Event.isDial) := by
  simp only [loop, List.countP_append, List.countP_cons, beforeDial_dials, afterDial_dials,
    Event.isDial, if_true]
  split_ifs <;> simp

/-- A dial, login or select failure does not panic. -/
theorem afterDial_failure (lib : Lib) (cfg : Config) (command : List String) (k : Nat)
    (a : Attempt)
    (h : a.dialFails = true ∨ a.loginFails = true ∨ a.selectFails = true) :
    (afterDial lib cfg command k a).2 = false := by
  unfold afterDial dialled
  simp only [Attempt.dialFails, Attempt.loginFails, Attempt.selectFails, Bool.and_eq_true,
    Bool.not_eq_true'] at h
  rcases h with h | ⟨⟨h1, h2⟩, h3⟩ | ⟨⟨⟨h1, h2⟩, h3⟩, h4⟩
  · simp [h]
  · simp [h1, h2, h3]
  · simp [h1, h2, h3, h4]

/-- With a non-empty command an iteration panics only if `client.DialTLS`
returns neither a client nor an error. -/
theorem afterDial_no_panic (lib : Lib) (cfg : Config) (prog : String) (args : List String)
    (k : Nat) (a : Attempt) (h : a.dialErr = true ∨ a.dialClient = true) :
    (afterDial lib cfg (prog :: args) k a).2 = false := by
  have hd := (dispatch_no_panic lib prog args k a.drained).1
  unfold afterDial dialled
  by_cases h1 : a.dialErr = true
  · simp [h1]
  · have h2 : a.dialClient = true := by tauto
    simp only [h1, h2, if_true, if_false, Bool.false_eq_true, hd]
    split_ifs <;> rfl

theorem loop_append (lib : Lib) (cfg : Config) (command : List String) :
    ∀ (env : List Attempt) (c : Option Nat) (k : Nat) (more : List Attempt),
      (∀ a ∈ env, ∀ j, (afterDial lib cfg command j a).2 = false) →
      loop lib cfg command c k (env ++ more) =
        loop lib cfg command c k env ++
          loop lib cfg command (clientAfter c k env) (k + env.length) more := by
  intro env
  induction env with
  | nil => intro c k more _; simp [loop, clientAfter]
  | cons a rest ih =>
    intro c k more h
    have ha := h a (by simp) k
    have := ih (dialled k a) (k + 1) more (fun b hb j => h b (by simp [hb]) j)
    simp only [List.cons_append, loop, ha, if_false, Bool.false_eq_true, clientAfter,
      List.length_cons, List.append_assoc]
    rw [List.append_eq, this, show k + 1 + rest.length = k + (rest.length + 1) by omega]

theorem loop_dials (lib : Lib) (cfg : Config) (command : List String) :
    ∀ (env : List Attempt) (c : Option Nat) (k : Nat),
      (∀ a ∈ env, ∀ j, (afterDial lib cfg command j a).2 = false) →
      (loop lib cfg command c k env).countP Event.isDial = env.length := by
  intro env
  induction env with
  | nil => intro c k _; simp [loop]
  | cons a rest ih =>
    intro c k h
    rw [loop_cons_dials, h a (by simp) k,
      ih (dialled k a) (k + 1) (fun b hb j => h b (by simp [hb]) j)]
    simp; omega

/-- C3: after a configuration passed the startup switch, N consecutive dial,
login or select failures make exactly N dial attempts, and whatever the outside
world answers next the trace goes on with one more iteration that dials again,
the dial attempt N+1; more generally the loop dials once per iteration and
never leaves: as long as `client.DialTLS` returns a client or an error, the
number of dial attempts is the number of iterations the script allows. -/
theorem reconnect_after_failures (lib : Lib) (cfg : Config)
    (h : startupCheck lib cfg = none) (fs : List Attempt)
    (hf : ∀ a ∈ fs, a.dialFails = true ∨ a.loginFails = true ∨ a.selectFails = true)
    (next : Attempt) :
    (run lib cfg fs).countP Event.isDial = fs.length ∧
    (run lib cfg (fs ++ [next])).countP Event.isDial = fs.length + 1 ∧
    (∃ tail, run lib cfg (fs ++ [next]) = run lib cfg fs ++ tail ∧
      tail.countP Event.isDial = 1) ∧
    ∀ env : List Attempt, (∀ a ∈ env, a.dialErr = true ∨ a.dialClient = true) →
      (run lib cfg env).countP Event.isDial = env.length := by
  have hfs : ∀ a ∈ fs, ∀ j, (afterDial lib cfg (command cfg) j a).2 = false :=
    fun a ha j => afterDial_failure lib cfg (command cfg) j a (hf a ha)
  have happ := loop_append lib cfg (command cfg) fs none 0 [next] hfs
  have hfsd := loop_dials lib cfg (command cfg) fs none 0 hfs
  have hlast : (loop lib cfg (command cfg) (clientAfter none 0 fs) (0 + fs.length)
      [next]).countP Event.isDial = 1 := by
    rw [loop_cons_dials]; simp [loop]
  simp only [run, h]
  refine ⟨hfsd, ?_, ⟨_, happ, hlast⟩, fun env henv => ?_⟩
  · rw [happ, List.countP_append, hfsd, hlast]
  · have hc := ((startupCheck_eq_none_iff lib cfg).1 h).2.2.2.2.1
    obtain ⟨prog, args, hpa⟩ := List.exists_cons_of_ne_nil hc
    rw [hpa]
    exact loop_dials lib cfg (prog :: args) env none 0
      (fun a ha j => afterDial_no_panic lib cfg prog args j a (henv a ha))

/-- Witness for C3: a dial failure, a login failure and a select failure in a
row, then an attempt that reaches idling: four dial attempts. -/
theorem reconnect_after_failures_witness :
    (run sampleLib sampleConfig
      ([⟨true, false, "", false, false, [], false⟩, ⟨false, true, "", true, false, [], false⟩,
        ⟨false, true, "", false, true, [], false⟩] ++
       [⟨false, true, "", false, false, [], false⟩])).countP Event.isDial = 3 + 1 :=
  (reconnect_after_failures sampleLib sampleConfig
    (by rw [startupCheck_eq_none_iff]; decide)
    [⟨true, false, "", false, false, [], false⟩, ⟨false, true, "", true, false, [], false⟩,
     ⟨false, true, "", false, true, [], false⟩]
    (by decide) ⟨false, true, "", false, false, [], false⟩).2.1

/-- The only sleep after the dial of an iteration is the 60s cooldown of a
failed dial. -/
theorem afterDial_sleeps (lib : Lib) (cfg : Config) (command : List String) (k : Nat)
    (a : Attempt) :
    (afterDial lib cfg command k a).1.filter Event.isSleep =
      if a.dialErr then [Event.sleep (60 * Second)] else [] := by
  by_cases h1 : a.dialErr = true
  · simp [afterDial, h1, Event.isSleep]
  · simp only [h1, if_false, Bool.false_eq_true, List.filter_eq_nil_iff]
    have h := afterDial_all lib cfg command k a (fun e => !e.isSleep)
      (fun e _ he _ => by simp [he]) (fun h => absurd h h1)
    rw [List.all_eq_true] at h
    intro e he
    simpa using h e he

/-- The only sleep before the dial of an iteration is the 60s cooldown that
follows the logout of a non-nil client. -/
theorem beforeDial_sleeps (lib : Lib) (cfg : Config) (c : Option Nat) :
    (beforeDial lib cfg c).filter Event.isSleep =
      if c.isSome then [Event.sleep (60 * Second)] else [] := by
  cases c <;> simp [beforeDial, teardown, Event.isSleep]

/-- An iteration whose dial returned no error and did not panic has a client. -/
theorem dialled_of_no_panic (lib : Lib) (cfg : Config) (command : List String) (k : Nat)
    (a : Attempt) (h1 : a.dialErr = false) (h2 : (afterDial lib cfg command k a).2 = false) :
    dialled k a = some k := by
  unfold afterDial at h2
  unfold dialled at *
  by_cases hc : a.dialClient = true
  · simp [hc]
  · simp only [h1, hc, if_false, Bool.false_eq_true] at h2
    split_ifs at h2

theorem run_eq_loop_of_dial (lib : Lib) (cfg : Config) (env : List Attempt)
    (pre rest : List Event) (d : Event) (hd : d.isDial = true)
    (h : run lib cfg env = pre ++ d :: rest) :
    run lib cfg env = loop lib cfg (command cfg) none 0 env := by
  unfold run at *
  cases hc : startupCheck lib cfg with
  | none => rfl
  | some t =>
    obtain ⟨msg, rfl⟩ := startupCheck_some lib cfg t hc
    rw [hc] at h
    have hm : d ∈ [Event.stderrln msg, Event.exit 1] := by
      have : d ∈ pre ++ d :: rest := by simp
      rw [← h] at this
      exact this
    simp only [List.mem_cons, List.mem_singleton, List.not_mem_nil, or_false] at hm
    rcases hm with rfl | rfl <;> cases hd

/-- C4: provided a failed `client.DialTLS` returns a nil client, between any two
consecutive dial attempts of a run there is exactly one sleep, and it lasts 60
seconds, whether the first of the two attempts ended in a dial, login or select
failure or in a return from idling with or without error. -/
theorem one_cooldown_between_dials (lib : Lib) (cfg : Config) (env : List Attempt)
    (hnil : ∀ a ∈ env, a.dialErr = true → a.dialClient = false)
    (pre mid post : List Event) (d1 d2 : Event)
    (hsplit : run lib cfg env = pre ++ d1 :: (mid ++ d2 :: post))
    (hd1 : d1.isDial = true) (hd2 : d2.isDial = true)
    (hmid : ∀ e ∈ mid, e.isDial = false) :
    mid.filter Event.isSleep = [Event.sleep (60 * Second)] := by
  rw [run_eq_loop_of_dial lib cfg env pre _ d1 hd1 hsplit] at hsplit
  obtain ⟨a, j, ha, _, hcr, hm⟩ :=
    loop_gap lib cfg (command cfg) env none 0 pre mid post d1 d2 hsplit hd1 hd2 hmid
  rw [hm, List.filter_append, afterDial_sleeps, beforeDial_sleeps]
  by_cases h1 : a.dialErr = true
  · have h2 := hnil a ha h1
    simp [h1, dialled, h2]
  · have h3 := dialled_of_no_panic lib cfg (command cfg) j a (by simpa using h1) hcr
    simp [h1, h3]

/-- Witness for C4: a dial failure that returns no client, then a login failure;
between the two dial attempts the trace holds the error log line, one 60s sleep
and the next log line. -/
theorem one_cooldown_between_dials_witness :
    run sampleLib sampleConfig
        [⟨true, false, "", false, false, [], false⟩, ⟨false, true, "", true, false, [], false⟩] =
      [Event.logInfo (sampleLib.Sprintf "Connecting to IMAP server: %s" ["imap.test:993"])] ++
        Event.dialTLS "imap.test:993" none true ::
        ([Event.logErr "Error connecting to IMAP server", Event.sleep (60 * Second),
          Event.logInfo (sampleLib.Sprintf "Connecting to IMAP server: %s" ["imap.test:993"])] ++
         Event.dialTLS "imap.test:993" (some 1) false ::
         [Event.logInfo (sampleLib.Sprintf "Logging in with user: %s" ["u"]),
          Event.login 1 "u" "p", Event.logErr "Error logging in"]) ∧
    [Event.logErr "Error connecting to IMAP server", Event.sleep (60 * Second),
      Event.logInfo (sampleLib.Sprintf "Connecting to IMAP server: %s" ["imap.test:993"])].filter
        Event.isSleep = [Event.sleep (60 * Second)] :=
  ⟨(run_of_accepted _ _ _ sample_accepted).trans rfl,
   one_cooldown_between_dials sampleLib sampleConfig
    [⟨true, false, "", false, false, [], false⟩, ⟨false, true, "", true, false, [], false⟩]
    (by decide)
    [Event.logInfo (sampleLib.Sprintf "Connecting to IMAP server: %s" ["imap.test:993"])]
    [Event.logErr "Error connecting to IMAP server", Event.sleep (60 * Second),
      Event.logInfo (sampleLib.Sprintf "Connecting to IMAP server: %s" ["imap.test:993"])]
    [Event.logInfo (sampleLib.Sprintf "Logging in with user: %s" ["u"]),
      Event.login 1 "u" "p", Event.logErr "Error logging in"]
    (Event.dialTLS "imap.test:993" none true) (Event.dialTLS "imap.test:993" (some 1) false)
    ((run_of_accepted _ _ _ sample_accepted).trans rfl) rfl rfl (by decide)⟩

theorem dispatch_channels (lib : Lib) (command : List String) (ch : Nat)
    (items : List (Update × RunResult)) :
    (dispatch lib command ch items).1.filter Event.isChannel = [] := by
  rw [List.filter_eq_nil_iff]
  intro e he
  have := dispatch_events lib command ch items e he
  cases e <;> simp_all [Event.isChannel, Event.isDispatch]

theorem afterDial_channels (lib : Lib) (cfg : Config) (prog : String) (args : List String)
    (k : Nat) (a : Attempt) :
    (afterDial lib cfg (prog :: args) k a).1.filter Event.isChannel =
      if a.idles then channelLifecycle cfg k else [] := by
  have hd := (dispatch_no_panic lib prog args k a.drained).1
  have hc := dispatch_channels lib (prog :: args) k a.drained
  unfold afterDial dialled Attempt.idles channelLifecycle
  by_cases h1 : a.dialErr = true <;> by_cases h2 : a.dialClient = true <;>
    by_cases h3 : a.loginErr = true <;> by_cases h4 : a.selectErr = true <;>
    by_cases h5 : a.debug = "1" <;> by_cases h6 : a.idleErr = true <;>
    simp [h1, h2, h3, h4, h5, h6, hd, hc, List.filter_append, Event.isChannel]

theorem beforeDial_channels (lib : Lib) (cfg : Config) (c : Option Nat) :
    (beforeDial lib cfg c).filter Event.isChannel = [] := by
  cases c <;> simp [beforeDial, teardown, Event.isChannel]

/-- With a non-empty command an iteration in which `client.DialTLS` returns
neither a client nor an error panics. -/
theorem afterDial_panic (lib : Lib) (cfg : Config) (command : List String)
    (k : Nat) (a : Attempt) (h1 : a.dialErr = false) (h2 : a.dialClient = false) :
    (afterDial lib cfg command k a).2 = true := by
  unfold afterDial dialled
  simp only [h1, h2, if_false, Bool.false_eq_true]
  split_ifs <;> rfl

theorem idlingIds_bounds : ∀ (env : List Attempt) (k i : Nat),
    i ∈ idlingIds k env → k ≤ i ∧ i < k + env.length := by
  intro env
  induction env with
  | nil => intro k i hi; simp [idlingIds] at hi
  | cons a rest ih =>
    intro k i hi
    simp only [idlingIds] at hi
    simp only [List.length_cons]
    split_ifs at hi with h1 h2
    · rcases List.mem_cons.1 hi with rfl | hi
      · omega
      · have := ih (k + 1) i hi
        omega
    · have := ih (k + 1) i hi
      omega
    · cases hi

theorem idlingIds_nodup : ∀ (env : List Attempt) (k : Nat), (idlingIds k env).Nodup := by
  intro env
  induction env with
  | nil => intro k; simp [idlingIds]
  | cons a rest ih =>
    intro k
    simp only [idlingIds]
    split_ifs
    · refine List.nodup_cons.2 ⟨fun hk => ?_, ih (k + 1)⟩
      have := idlingIds_bounds rest (k + 1) k hk
      omega
    · exact ih (k + 1)
    · exact List.nodup_nil

/-- The channel events of the loop are the lifecycles of the connections of the
iterations that reach idling, one after the other. -/
theorem loop_channels (lib : Lib) (cfg : Config) (prog : String) (args : List String) :
    ∀ (env : List Attempt) (c : Option Nat) (k : Nat),
      (loop lib cfg (prog :: args) c k env).filter Event.isChannel =
        (idlingIds k env).flatMap (channelLifecycle cfg) := by
  intro env
  induction env with
  | nil => intro c k; simp [loop, idlingIds]
  | cons a rest ih =>
    intro c k
    have hfront : (loop lib cfg (prog :: args) c k (a :: rest)).filter Event.isChannel =
        (if a.idles then channelLifecycle cfg k else []) ++
          (if (afterDial lib cfg (prog :: args) k a).2 then []
           else (loop lib cfg (prog :: args) (dialled k a) (k + 1) rest).filter
             Event.isChannel) := by
      simp only [loop, List.filter_append, List.filter_cons, beforeDial_channels,
        afterDial_channels, Event.isChannel, List.nil_append, Bool.false_eq_true, if_false]
      split_ifs <;> simp
    rw [hfront, ih (dialled k a) (k + 1)]
    by_cases hi : a.idles = true
    · have hcr : (afterDial lib cfg (prog :: args) k a).2 = false := by
        apply afterDial_no_panic
        simp only [Attempt.idles, Bool.and_eq_true] at hi
        exact Or.inr hi.1.1.2
      simp [idlingIds, hi, hcr]
    · by_cases hd : a.dialErr = true ∨ a.dialClient = true
      · have hcr := afterDial_no_panic lib cfg prog args k a hd
        have hd2 : (a.dialErr || a.dialClient) = true := by simpa using hd
        simp [idlingIds, hi, hcr, hd2]
      · have h1 : a.dialErr = false := by
          cases h : a.dialErr
          · rfl
          · exact absurd (Or.inl h) hd
        have h2 : a.dialClient = false := by
          cases h : a.dialClient
          · rfl
          · exact absurd (Or.inr h) hd
        have hcr := afterDial_panic lib cfg (prog :: args) k a h1 h2
        simp [idlingIds, hi, hcr, h1, h2]

/-- An iteration that reaches idling dialled its connection successfully. -/
theorem loop_idling_dialled (lib : Lib) (cfg : Config) (command : List String) :
    ∀ (env : List Attempt) (c : Option Nat) (k j : Nat),
      (∀ a ∈ env, ∀ i, a.dialErr = true ∨ a.dialClient = true →
        (afterDial lib cfg command i a).2 = false) →
      j ∈ idlingIds k env →
      Event.dialTLS cfg.server (some j) false ∈ loop lib cfg command c k env := by
  intro env
  induction env with
  | nil => intro c k j _ hj; simp [idlingIds] at hj
  | cons a rest ih =>
    intro c k j hcr hj
    simp only [idlingIds] at hj
    have hrest : ∀ b ∈ rest, ∀ i, b.dialErr = true ∨ b.dialClient = true →
        (afterDial lib cfg command i b).2 = false := fun b hb => hcr b (by simp [hb])
    simp only [loop, List.mem_append, List.mem_cons]
    split_ifs at hj with h1 h2
    · have h1c := h1
      simp only [Attempt.idles, Bool.and_eq_true, Bool.not_eq_true'] at h1
      rcases List.mem_cons.1 hj with rfl | hj
      · refine Or.inl (Or.inr (Or.inl ?_))
        simp [dialled, h1.1.1.1, h1.1.1.2]
      · have hc := hcr a (by simp) k (Or.inr h1.1.1.2)
        refine Or.inr ?_
        simp only [hc, if_false, Bool.false_eq_true]
        exact ih (dialled k a) (k + 1) j hrest hj
    · have hc := hcr a (by simp) k (by simpa using h2)
      refine Or.inr ?_
      simp only [hc, if_false, Bool.false_eq_true]
      exact ih (dialled k a) (k + 1) j hrest hj
    · cases hj

/-- In a sequence of lifecycles of pairwise different connections every event
of a lifecycle occurs exactly once. -/
theorem count_channelLifecycle (cfg : Config) (e : Event) :
    ∀ (ids : List Nat) (j : Nat), ids.Nodup → j ∈ ids → e ∈ channelLifecycle cfg j →
      (ids.flatMap (channelLifecycle cfg)).count e = 1 := by
  have huniq : ∀ i j, e ∈ channelLifecycle cfg i → e ∈ channelLifecycle cfg j → i = j := by
    intro i j hi hj
    simp only [channelLifecycle, List.mem_cons, List.mem_singleton, List.not_mem_nil,
      or_false] at hi hj
    rcases hi with rfl | rfl | rfl | rfl | rfl | rfl <;>
      rcases hj with hj | hj | hj | hj | hj | hj <;> cases hj <;> rfl
  have hone : ∀ j, e ∈ channelLifecycle cfg j → (channelLifecycle cfg j).count e = 1 := by
    intro j hj
    simp only [channelLifecycle, List.mem_cons, List.mem_singleton, List.not_mem_nil,
      or_false] at hj
    rcases hj with rfl | rfl | rfl | rfl | rfl | rfl <;>
      simp [channelLifecycle, List.count_cons]
  intro ids
  induction ids with
  | nil => intro j _ hj; cases hj
  | cons i rest ih =>
    intro j hnd hj he
    obtain ⟨hi, hnd2⟩ := List.nodup_cons.1 hnd
    rw [List.flatMap_cons, List.count_append]
    rcases List.mem_cons.1 hj with rfl | hj2
    · have hz : (rest.flatMap (channelLifecycle cfg)).count e = 0 := by
        rw [List.count_eq_zero]
        intro hm
        obtain ⟨i, hi2, hi3⟩ := List.mem_flatMap.1 hm
        exact hi (huniq i j hi3 he ▸ hi2)
      rw [hone j he, hz]
    · have hz : (channelLifecycle cfg i).count e = 0 := by
        rw [List.count_eq_zero]
        intro hm
        exact hi (huniq i j hm he ▸ hj2)
      rw [hz, ih j hnd2 hj2 he]

/-- C7: in a run of an accepted configuration, between a successful dial and the
next dial attempt the connection just dialled is logged out, whatever ended it;
and the channel events of the whole trace are exactly the lifecycles of the
iterations that reach idling, one after the other and in order: each such
iteration, and no other, makes a queue of capacity 32 and a stop signal for the
connection it dialled, hands them to the goroutine, idles on that stop signal
and closes it.  The iterations are pairwise different, so each queue and each
stop signal is made once, idled on once, and the stop signal is closed exactly
once. -/
theorem connection_torn_down_before_redial (lib : Lib) (cfg : Config)
    (h : startupCheck lib cfg = none) (env : List Attempt) :
    (∀ (pre mid post : List Event) (s : String) (c : Nat) (d2 : Event),
      run lib cfg env = pre ++ Event.dialTLS s (some c) false :: (mid ++ d2 :: post) →
      d2.isDial = true → (∀ e ∈ mid, e.isDial = false) →
      Event.logout c ∈ mid ∧ mid.count (Event.logout c) = 1) ∧
    (run lib cfg env).filter Event.isChannel =
      (idlingIds 0 env).flatMap (channelLifecycle cfg) ∧
    (idlingIds 0 env).Nodup ∧
    ((∀ a ∈ env, a.dialErr = true ∨ a.dialClient = true) →
      (idlingIds 0 env).length = env.countP Attempt.idles) ∧
    ∀ j ∈ idlingIds 0 env,
      Event.dialTLS cfg.server (some j) false ∈ run lib cfg env ∧
      (run lib cfg env).count (Event.makeUpdates j 32) = 1 ∧
      (run lib cfg env).count (Event.makeStop j 1) = 1 ∧
      (run lib cfg env).count (Event.idle j j (15 * Minute) cfg.checkInterval) = 1 ∧
      (run lib cfg env).count (Event.closeStop j) = 1 := by
  have hc := ((startupCheck_eq_none_iff lib cfg).1 h).2.2.2.2.1
  obtain ⟨prog, args, hpa⟩ := List.exists_cons_of_ne_nil hc
  have hchan : (run lib cfg env).filter Event.isChannel =
      (idlingIds 0 env).flatMap (channelLifecycle cfg) := by
    rw [run_of_accepted lib cfg env h, hpa]
    exact loop_channels lib cfg prog args env none 0
  refine ⟨?_, hchan, idlingIds_nodup env 0, ?_, ?_⟩
  · rw [run_of_accepted lib cfg env h]
    intro pre mid post s c d2 hsplit hd2 hmid
    obtain ⟨a, j, _, hd1, hcr, hm⟩ :=
      loop_gap lib cfg (command cfg) env none 0 pre mid post _ d2 hsplit rfl hd2 hmid
    simp only [Event.dialTLS.injEq] at hd1
    have hlog : ∀ e ∈ (afterDial lib cfg (command cfg) j a).1, e ≠ Event.logout c := by
      have hall := afterDial_all lib cfg (command cfg) j a (fun e => e != Event.logout c)
        (fun e _ _ hl => by simpa using hl c) (fun _ => by simp)
      rw [List.all_eq_true] at hall
      intro e he
      simpa using hall e he
    have hcount : (afterDial lib cfg (command cfg) j a).1.count (Event.logout c) = 0 := by
      rw [List.count_eq_zero]
      intro hmem
      exact hlog _ hmem rfl
    rw [hm, ← hd1.2.1]
    refine ⟨by simp [beforeDial, teardown], ?_⟩
    rw [List.count_append, hcount]
    simp [beforeDial, teardown, List.count_cons]
  · intro henv
    clear hchan
    generalize (0 : Nat) = k
    induction env generalizing k with
    | nil => simp [idlingIds]
    | cons a rest ih =>
      have ha := henv a (by simp)
      have hd2 : (a.dialErr || a.dialClient) = true := by simpa using ha
      have := ih (fun b hb => henv b (by simp [hb])) (k + 1)
      by_cases hi : a.idles = true <;>
        simp [idlingIds, hi, hd2, this, List.countP_cons]
  · intro j hj
    have hcnt : ∀ e, e.isChannel = true → e ∈ channelLifecycle cfg j →
        (run lib cfg env).count e = 1 := by
      intro e he hmem
      rw [← List.count_filter he, hchan]
      exact count_channelLifecycle cfg e _ j (idlingIds_nodup env 0) hj hmem
    refine ⟨?_, hcnt _ rfl (by simp [channelLifecycle]), hcnt _ rfl (by simp [channelLifecycle]),
      hcnt _ rfl (by simp [channelLifecycle]), hcnt _ rfl (by simp [channelLifecycle])⟩
    rw [run_of_accepted lib cfg env h, hpa]
    exact loop_idling_dialled lib cfg (prog :: args) env none 0 j
      (fun a _ i ha => afterDial_no_panic lib cfg prog args i a ha) hj

/-- Witness for C7: a login failure, an attempt that idles, a dial failure.
Connection 0 is logged out between the first two dial attempts; the channel
events of the run are the lifecycle of connection 1, the one that idles, and
its stop signal is closed once. -/
theorem connection_torn_down_before_redial_witness :
    (Event.logout 0 ∈
        [Event.logInfo (sampleLib.Sprintf "Logging in with user: %s" ["u"]),
         Event.login 0 "u" "p", Event.logErr "Error logging in", Event.logout 0,
         Event.sleep (60 * Second),
         Event.logInfo (sampleLib.Sprintf "Connecting to IMAP server: %s" ["imap.test:993"])] ∧
      [Event.logInfo (sampleLib.Sprintf "Logging in with user: %s" ["u"]),
         Event.login 0 "u" "p", Event.logErr "Error logging in", Event.logout 0,
         Event.sleep (60 * Second),
         Event.logInfo (sampleLib.Sprintf "Connecting to IMAP server: %s" ["imap.test:993"])].count
        (Event.logout 0) = 1) ∧
    (run sampleLib sampleConfig sampleAttempts).filter Event.isChannel =
      [Event.makeUpdates 1 32, Event.setUpdates 1 1, Event.makeStop 1 1, Event.go 1 1,
       Event.idle 1 1 (15 * Minute) (30 * Second), Event.closeStop 1] ∧
    Event.dialTLS "imap.test:993" (some 1) false ∈ run sampleLib sampleConfig sampleAttempts ∧
    (run sampleLib sampleConfig sampleAttempts).count (Event.makeStop 1 1) = 1 ∧
    (run sampleLib sampleConfig sampleAttempts).count (Event.closeStop 1) = 1 :=
  ⟨(connection_torn_down_before_redial sampleLib sampleConfig sample_accepted
      sampleAttempts).1
      [Event.logInfo (sampleLib.Sprintf "Connecting to IMAP server: %s" ["imap.test:993"])]
      [Event.logInfo (sampleLib.Sprintf "Logging in with user: %s" ["u"]),
       Event.login 0 "u" "p", Event.logErr "Error logging in", Event.logout 0,
       Event.sleep (60 * Second),
       Event.logInfo (sampleLib.Sprintf "Connecting to IMAP server: %s" ["imap.test:993"])]
      [Event.logInfo (sampleLib.Sprintf "Logging in with user: %s" ["u"]),
       Event.login 1 "u" "p",
       Event.logInfo (sampleLib.Sprintf "Selecting mailbox: %s" ["INBOX"]),
       Event.select 1 "INBOX" false,
       Event.makeUpdates 1 32, Event.setUpdates 1 1, Event.makeStop 1 1, Event.go 1 1,
       Event.logInfo "Entering idle mode...",
       Event.idle 1 1 (15 * Minute) (30 * Second),
       Event.recv 1 Update.MailboxUpdate,
       Event.logInfo (sampleLib.Sprintf "Received IMAP update: %T" ["*client.MailboxUpdate"]),
       Event.logInfo "New mail detected. Executing script...",
       Event.exec "notify.sh" [],
       Event.logErr "Idling failed", Event.closeStop 1,
       Event.logout 1, Event.sleep (60 * Second),
       Event.logInfo (sampleLib.Sprintf "Connecting to IMAP server: %s" ["imap.test:993"]),
       Event.dialTLS "imap.test:993" none true,
       Event.logErr "Error connecting to IMAP server", Event.sleep (60 * Second)]
      "imap.test:993" 0 (Event.dialTLS "imap.test:993" (some 1) false)
      ((run_of_accepted _ _ _ sample_accepted).trans rfl) rfl (by decide),
   (connection_torn_down_before_redial sampleLib sampleConfig sample_accepted
      sampleAttempts).2.1.trans rfl,
   ((connection_torn_down_before_redial sampleLib sampleConfig sample_accepted
      sampleAttempts).2.2.2.2 1 (by decide)).1,
   ((connection_torn_down_before_redial sampleLib sampleConfig sample_accepted
      sampleAttempts).2.2.2.2 1 (by decide)).2.2.1,
   ((connection_torn_down_before_redial sampleLib sampleConfig sample_accepted
      sampleAttempts).2.2.2.2 1 (by decide)).2.2.2.2⟩

/-! ## Event dispatch -/

theorem expectedExecutions_cons (a : Attempt) (rest : List Attempt) :
    expectedExecutions (a :: rest) =
      (if a.idles then a.drained.countP (fun x => x.1.isMailboxUpdate) else 0) +
        expectedExecutions rest := by
  by_cases hi : a.idles = true <;> simp [expectedExecutions, List.filter_cons, hi]

theorem dispatch_execs (lib : Lib) (prog : String) (args : List String) (ch : Nat)
    (items : List (Update × RunResult)) :
    (dispatch lib (prog :: args) ch items).1.filter Event.isExec =
      List.replicate (items.countP (fun x => x.1.isMailboxUpdate)) (Event.exec prog args) := by
  induction items with
  | nil => simp [dispatch]
  | cons x rest ih =>
    obtain ⟨u, r⟩ := x
    rw [dispatch_cons_command]
    by_cases hu : u.isMailboxUpdate = true <;> by_cases hr : r.isErr = true <;>
      simp [hu, hr, notify_cons, List.filter_append, Event.isExec, ih, List.countP_cons,
        List.replicate_succ']
    all_goals simp [← List.replicate_succ']
    all_goals simp [List.replicate_succ]

theorem dispatch_recv_exec (lib : Lib) (prog : String) (args : List String) (ch : Nat)
    (items : List (Update × RunResult)) :
    (dispatch lib (prog :: args) ch items).1.filter Event.isRecvOrExec =
      items.flatMap (fun x => Event.recv ch x.1 ::
        (if x.1.isMailboxUpdate then [Event.exec prog args] else [])) := by
  have e1 : ∀ c u, (Event.recv c u).isRecvOrExec = true := fun _ _ => rfl
  have e2 : ∀ m, (Event.logInfo m).isRecvOrExec = false := fun _ => rfl
  have e3 : ∀ m, (Event.logErr m).isRecvOrExec = false := fun _ => rfl
  have e4 : ∀ q a, (Event.exec q a).isRecvOrExec = true := fun _ _ => rfl
  induction items with
  | nil => simp [dispatch]
  | cons x rest ih =>
    obtain ⟨u, r⟩ := x
    rw [dispatch_cons_command]
    by_cases hu : u.isMailboxUpdate = true <;> by_cases hr : r.isErr = true <;>
      simp [hu, hr, notify_cons, List.filter_append, List.filter_cons, e1, e2, e3, e4, ih]

theorem afterDial_execs (lib : Lib) (cfg : Config) (prog : String) (args : List String)
    (k : Nat) (a : Attempt) :
    (afterDial lib cfg (prog :: args) k a).1.filter Event.isExec =
      if a.idles then (dispatch lib (prog :: args) k a.drained).1.filter Event.isExec
      else [] := by
  have hd := (dispatch_no_panic lib prog args k a.drained).1
  unfold afterDial dialled Attempt.idles
  by_cases h1 : a.dialErr = true <;> by_cases h2 : a.dialClient = true <;>
    by_cases h3 : a.loginErr = true <;> by_cases h4 : a.selectErr = true <;>
    by_cases h5 : a.debug = "1" <;> by_cases h6 : a.idleErr = true <;>
    simp [h1, h2, h3, h4, h5, h6, hd, List.filter_append, Event.isExec]

theorem beforeDial_execs (lib : Lib) (cfg : Config) (c : Option Nat) :
    (beforeDial lib cfg c).filter Event.isExec = [] := by
  cases c <;> simp [beforeDial, teardown, Event.isExec]

theorem loop_execs (lib : Lib) (cfg : Config) (prog : String) (args : List String) :
    ∀ (env : List Attempt) (c : Option Nat) (k : Nat),
      (∀ a ∈ env, a.dialErr = true ∨ a.dialClient = true) →
      (loop lib cfg (prog :: args) c k env).filter Event.isExec =
        List.replicate (expectedExecutions env) (Event.exec prog args) := by
  intro env
  induction env with
  | nil => intro c k _; simp [loop, expectedExecutions]
  | cons a rest ih =>
    intro c k h
    have hcr := afterDial_no_panic lib cfg prog args k a (h a (by simp))
    have hrest := ih (dialled k a) (k + 1) (fun b hb => h b (by simp [hb]))
    simp only [loop, hcr, List.filter_append, List.filter_cons, beforeDial_execs,
      afterDial_execs, dispatch_execs, hrest, Event.isExec, List.nil_append,
      Bool.false_eq_true, if_false]
    rw [expectedExecutions_cons]
    by_cases hi : a.idles = true
    · simp only [hi, if_true, List.append_replicate_replicate]
    · simp only [hi, if_false, Bool.false_eq_true, List.nil_append, Nat.zero_add]

/-- C5: for an accepted configuration, with `prog` and `args` the first word and
the remaining words of the configured command, the dispatch of any finite
sequence of dequeued updates does not panic and runs `prog args` once for each
`*client.MailboxUpdate` of the sequence and for no other update: the
executions are as many as the mailbox updates, all of the same command, and
each follows the receive of its own update, in dequeue order.  Over a whole run
the executions are those of the attempts that reach idling. -/
theorem one_execution_per_mailbox_update (lib : Lib) (cfg : Config)
    (h : startupCheck lib cfg = none) (ch : Nat) (items : List (Update × RunResult)) :
    ∃ prog args, command cfg = prog :: args ∧
      (dispatch lib (command cfg) ch items).2 = false ∧
      ((dispatch lib (command cfg) ch items).1.filter Event.isExec).length =
        items.countP (fun x => x.1.isMailboxUpdate) ∧
      (dispatch lib (command cfg) ch items).1.filter Event.isExec =
        List.replicate (items.countP (fun x => x.1.isMailboxUpdate)) (Event.exec prog args) ∧
      (dispatch lib (command cfg) ch items).1.filter Event.isRecvOrExec =
        items.flatMap (fun x => Event.recv ch x.1 ::
          (if x.1.isMailboxUpdate then [Event.exec prog args] else [])) ∧
      ∀ env : List Attempt, (∀ a ∈ env, a.dialErr = true ∨ a.dialClient = true) →
        (run lib cfg env).filter Event.isExec =
          List.replicate (expectedExecutions env) (Event.exec prog args) := by
  have hc := ((startupCheck_eq_none_iff lib cfg).1 h).2.2.2.2.1
  obtain ⟨prog, args, hpa⟩ := List.exists_cons_of_ne_nil hc
  refine ⟨prog, args, hpa, ?_⟩
  rw [hpa]
  refine ⟨(dispatch_no_panic lib prog args ch items).1, ?_, dispatch_execs lib prog args ch items,
    dispatch_recv_exec lib prog args ch items, fun env henv => ?_⟩
  · rw [dispatch_execs, List.length_replicate]
  · rw [run_of_accepted lib cfg env h, hpa]
    exact loop_execs lib cfg prog args env none 0 henv

/-- Witness for C5: the scenario of the spec; three mailbox updates, with a
status update in between, give three runs of `notify.sh` without arguments. -/
theorem one_execution_per_mailbox_update_witness :
    ∃ prog args, command sampleConfig = prog :: args ∧
      (dispatch sampleLib (command sampleConfig) 0
        [(Update.MailboxUpdate, RunResult.success), (Update.StatusUpdate, RunResult.success),
         (Update.MailboxUpdate, RunResult.exitError 2),
         (Update.MailboxUpdate, RunResult.success)]).1.filter Event.isExec =
        List.replicate 3 (Event.exec prog args) :=
  let ⟨prog, args, hc, _, _, he, _⟩ :=
    one_execution_per_mailbox_update sampleLib sampleConfig sample_accepted 0
      [(Update.MailboxUpdate, RunResult.success), (Update.StatusUpdate, RunResult.success),
       (Update.MailboxUpdate, RunResult.exitError 2), (Update.MailboxUpdate, RunResult.success)]
  ⟨prog, args, hc, he⟩

theorem dispatch_erase (lib : Lib) (prog : String) (args : List String) (ch : Nat)
    (items : List (Update × RunResult)) :
    (dispatch lib (prog :: args) ch items).1.filter Event.notScriptError =
      (dispatch lib (prog :: args) ch
        (items.map (fun x => (x.1, RunResult.success)))).1.filter Event.notScriptError := by
  have e3 : (Event.logErr "Error executing script").notScriptError = false := by
    simp [Event.notScriptError]
  induction items with
  | nil => rfl
  | cons x rest ih =>
    obtain ⟨u, r⟩ := x
    rw [List.map_cons, dispatch_cons_command, dispatch_cons_command]
    simp only [List.filter_append, ih, notify_cons]
    have hs : RunResult.success.isErr = false := rfl
    by_cases hr : r.isErr = true <;> by_cases hu : u.isMailboxUpdate = true <;>
      simp [hr, hu, hs, List.filter_append, List.filter_cons, e3]

theorem afterDial_erase (lib : Lib) (cfg : Config) (prog : String) (args : List String)
    (k : Nat) (a : Attempt) :
    (afterDial lib cfg (prog :: args) k a).1.filter Event.notScriptError =
      (afterDial lib cfg (prog :: args) k a.eraseOutcomes).1.filter Event.notScriptError ∧
    (afterDial lib cfg (prog :: args) k a).2 =
      (afterDial lib cfg (prog :: args) k a.eraseOutcomes).2 := by
  have hd := (dispatch_no_panic lib prog args k a.drained).1
  have hd2 := (dispatch_no_panic lib prog args k
    (a.drained.map (fun x => (x.1, RunResult.success)))).1
  have he := dispatch_erase lib prog args k a.drained
  unfold afterDial dialled Attempt.eraseOutcomes
  by_cases h1 : a.dialErr = true <;> by_cases h2 : a.dialClient = true <;>
    by_cases h3 : a.loginErr = true <;> by_cases h4 : a.selectErr = true <;>
    by_cases h5 : a.debug = "1" <;> by_cases h6 : a.idleErr = true <;>
    simp only [h1, h2, h3, h4, h5, h6, hd, hd2, he, List.filter_append, if_true, if_false,
      Bool.false_eq_true, and_self]

theorem loop_erase (lib : Lib) (cfg : Config) (prog : String) (args : List String) :
    ∀ (env : List Attempt) (c : Option Nat) (k : Nat),
      (loop lib cfg (prog :: args) c k env).filter Event.notScriptError =
        (loop lib cfg (prog :: args) c k
          (env.map Attempt.eraseOutcomes)).filter Event.notScriptError := by
  intro env
  induction env with
  | nil => intro c k; rfl
  | cons a rest ih =>
    intro c k
    have ha := afterDial_erase lib cfg prog args k a
    have hdl : dialled k a.eraseOutcomes = dialled k a := rfl
    have hde : a.eraseOutcomes.dialErr = a.dialErr := rfl
    simp only [List.map_cons, loop, List.filter_append, List.filter_cons, hdl, hde, ← ha.1,
      ← ha.2]
    by_cases hcr : (afterDial lib cfg (prog :: args) k a).2 = true
    · simp only [hcr, if_true]
    · simp only [hcr, if_false, Bool.false_eq_true, ih (dialled k a) (k + 1)]

/-- C6: for an accepted configuration and every outcome of `cmd.Run()`, `notify`
returns without a panic after running the command exactly once (no retry); the
dispatch loop goes on with the updates that follow, whatever the outcome for
the first one; a mailbox update after a failed execution runs the same command
again; and two runs of the program whose outside world differs only in the
outcomes of the command have the same trace up to the error log lines of
`notify`: dials, logins, selects, sleeps and logouts are the same. -/
theorem command_failure_does_not_propagate (lib : Lib) (cfg : Config)
    (h : startupCheck lib cfg = none) :
    ∃ prog args, command cfg = prog :: args ∧
      (∀ r, (notify (command cfg) r).2 = false ∧
        (notify (command cfg) r).1.filter Event.isExec = [Event.exec prog args]) ∧
      (∀ ch u r rest,
        (dispatch lib (command cfg) ch ((u, r) :: rest)).1 =
          (dispatch lib (command cfg) ch [(u, r)]).1 ++ (dispatch lib (command cfg) ch rest).1 ∧
        (dispatch lib (command cfg) ch ((u, r) :: rest)).2 = false) ∧
      (∀ ch r1 r2 mid, (∀ x ∈ mid, x.1.isMailboxUpdate = false) →
        (dispatch lib (command cfg) ch
          ((Update.MailboxUpdate, r1) :: (mid ++ [(Update.MailboxUpdate, r2)]))).1.filter
            Event.isExec = [Event.exec prog args, Event.exec prog args]) ∧
      ∀ env1 env2 : List Attempt,
        env1.map Attempt.eraseOutcomes = env2.map Attempt.eraseOutcomes →
        (run lib cfg env1).filter Event.notScriptError =
          (run lib cfg env2).filter Event.notScriptError := by
  have hc := ((startupCheck_eq_none_iff lib cfg).1 h).2.2.2.2.1
  obtain ⟨prog, args, hpa⟩ := List.exists_cons_of_ne_nil hc
  refine ⟨prog, args, hpa, ?_⟩
  rw [hpa]
  refine ⟨fun r => ?_, fun ch u r rest => ⟨?_, ?_⟩, fun ch r1 r2 mid hmid => ?_,
    fun env1 env2 henv => ?_⟩
  · rw [notify_cons]
    by_cases hr : r.isErr = true <;> simp [hr, Event.isExec]
  · rw [dispatch_cons_command, dispatch_cons_command]
    simp [dispatch]
  · exact (dispatch_no_panic lib prog args ch _).1
  · rw [dispatch_execs]
    have hz : mid.countP (fun x => x.1.isMailboxUpdate) = 0 := by
      rw [List.countP_eq_zero]
      intro x hx
      simp [hmid x hx]
    have hm : Update.MailboxUpdate.isMailboxUpdate = true := rfl
    simp only [List.countP_cons, List.countP_append, List.countP_nil, hz, hm, if_true]
    rfl
  · rw [run_of_accepted lib cfg env1 h, run_of_accepted lib cfg env2 h, hpa,
      loop_erase lib cfg prog args env1, loop_erase lib cfg prog args env2, henv]

/-- Witness for C6: in the scenario of the spec the first execution fails to
start; the second mailbox update still runs `notify.sh`. -/
theorem command_failure_does_not_propagate_witness :
    ∃ prog args, command sampleConfig = prog :: args ∧
      (dispatch sampleLib (command sampleConfig) 0
        ((Update.MailboxUpdate, RunResult.startError) ::
          ([(Update.StatusUpdate, RunResult.success)] ++
            [(Update.MailboxUpdate, RunResult.success)]))).1.filter Event.isExec =
        [Event.exec prog args, Event.exec prog args] :=
  let ⟨prog, args, hc, _, _, he, _⟩ :=
    command_failure_does_not_propagate sampleLib sampleConfig sample_accepted
  ⟨prog, args, hc, he 0 RunResult.startError RunResult.success
    [(Update.StatusUpdate, RunResult.success)] (by decide)⟩

theorem step_returned (s t : Session) (l : Step) (hs : s.gor = GoPc.returned)
    (h : step s l = some t) : l.isGoroutine = false ∧ t.gor = GoPc.returned := by
  cases l <;> simp only [step] at h
  · split_ifs at h; cases h; exact ⟨rfl, hs⟩
  · split_ifs at h; cases h; exact ⟨rfl, hs⟩
  · split_ifs at h; cases h; exact ⟨rfl, hs⟩
  · split_ifs at h; cases h; exact ⟨rfl, hs⟩
  · rw [hs] at h; simp at h
  · rw [hs] at h; simp at h
  · rw [hs] at h; simp at h

theorem steps_returned (ls : List Step) :
    ∀ (s t : Session), s.gor = GoPc.returned → steps s ls = some t →
      (∀ l ∈ ls, l.isGoroutine = false) ∧ t.gor = GoPc.returned := by
  induction ls with
  | nil =>
    intro s t hs h
    simp only [steps, Option.some.injEq] at h
    exact ⟨by simp, h ▸ hs⟩
  | cons l rest ih =>
    intro s t hs h
    simp only [steps] at h
    cases hst : step s l with
    | none => rw [hst] at h; cases h
    | some u =>
      rw [hst] at h
      obtain ⟨h1, h2⟩ := step_returned s u l hs hst
      obtain ⟨h3, h4⟩ := ih u t h2 h
      refine ⟨fun x hx => ?_, h4⟩
      rcases List.mem_cons.1 hx with rfl | hx
      · exact h1
      · exact h3 x hx

theorem steps_stop_of_loggedOut (ls : List Step) :
    ∀ (s t : Session), (s.main = MainPc.stopClosed ∨ s.main = MainPc.loggedOut → s.stop = true) →
      steps s ls = some t →
      (t.main = MainPc.stopClosed ∨ t.main = MainPc.loggedOut → t.stop = true) := by
  induction ls with
  | nil =>
    intro s t hs h
    simp only [steps, Option.some.injEq] at h
    exact h ▸ hs
  | cons l rest ih =>
    intro s t hs h
    simp only [steps] at h
    cases hst : step s l with
    | none => rw [hst] at h; cases h
    | some u =>
      rw [hst] at h
      refine ih u t ?_ h
      cases l <;> simp only [step] at hst <;> split_ifs at hst with h1
      · cases hst; exact hs
      · cases hst; simp [h1] at hs ⊢
      · cases hst; simp
      · cases hst; simp [h1] at hs ⊢; exact hs
      · split at hst
        · cases hst
        · cases hst; exact hs
      · cases hst; exact hs
      · cases hst; exact hs

/-- C8, counterexample: a second mailbox update arrives while the command runs for
the first one, then the connection drops; the main loop closes the stop
signal and logs the connection out, and the command finishes: the goroutine
is back at its `select` with the stop signal closed, the connection logged out
and an update in the queue.  Both cases of the `select` are ready; taking the
updates case as the eighth step is a receive from the queue of the torn-down
connection, and the goroutine runs the command again. -/
theorem receive_after_teardown :
    steps Session.start
        [Step.enqueue Update.MailboxUpdate, Step.recv, Step.enqueue Update.MailboxUpdate,
         Step.idleReturns true, Step.closeStop, Step.logout,
         Step.runReturns RunResult.success] =
      some ⟨MainPc.loggedOut, GoPc.selecting, [Update.MailboxUpdate], true⟩ ∧
    steps Session.start
        ([Step.enqueue Update.MailboxUpdate, Step.recv, Step.enqueue Update.MailboxUpdate,
          Step.idleReturns true, Step.closeStop, Step.logout,
          Step.runReturns RunResult.success] ++ [Step.recv]) =
      some ⟨MainPc.loggedOut, GoPc.notifying, [], true⟩ := by
  decide

/-- C8, amended: in every interleaving, a logged-out connection has its stop
signal closed; with the stop signal closed the stop case is enabled whenever
the goroutine stands at its `select`, and taking it makes the goroutine
return; with an empty updates channel the receive case is not enabled; and
once the goroutine has returned, no later step of the session is a receive, a
`notify` execution or any other step of the goroutine. -/
theorem no_dispatch_after_stop_case (before after : List Step) (s t : Session)
    (h1 : steps Session.start before = some s) (h2 : steps s after = some t) :
    (s.main = MainPc.loggedOut → s.stop = true) ∧
    (s.stop = true → s.gor = GoPc.selecting →
      ∃ u, step s Step.stopCase = some u ∧ u.gor = GoPc.returned) ∧
    (s.updates = [] → step s Step.recv = none) ∧
    (s.gor = GoPc.returned → (∀ l ∈ after, l.isGoroutine = false) ∧ t.gor = GoPc.returned) := by
  refine ⟨fun hm => ?_, fun hs hg => ?_, fun hu => ?_, fun hg => ?_⟩
  · exact steps_stop_of_loggedOut before Session.start s (by simp [Session.start]) h1
      (Or.inr hm)
  · exact ⟨{ s with gor := GoPc.returned }, by simp [step, hs, hg], rfl⟩
  · simp only [step, hu]
    split_ifs <;> rfl
  · exact steps_returned after s t hg h2

/-- Witness for C8: the connection drops, is torn down and the goroutine takes the
stop case; the update the library sends afterwards stays in the queue. -/
theorem no_dispatch_after_stop_case_witness :
    (∀ l ∈ [Step.enqueue Update.MailboxUpdate], l.isGoroutine = false) ∧
    (⟨MainPc.loggedOut, GoPc.returned, [Update.MailboxUpdate], true⟩ : Session).gor =
      GoPc.returned :=
  (no_dispatch_after_stop_case
    [Step.idleReturns false, Step.closeStop, Step.logout, Step.stopCase]
    [Step.enqueue Update.MailboxUpdate]
    ⟨MainPc.loggedOut, GoPc.returned, [], true⟩
    ⟨MainPc.loggedOut, GoPc.returned, [Update.MailboxUpdate], true⟩
    (by decide) (by decide)).2.2.2 rfl

end Polly
